import Mathlib

/-!
# lambda-flowlogs-ingester: a shallow embedding of `main.go`

The handler reacts to S3 object-created notifications, downloads and parses a
VPC flow-log file and loads the valid rows into an Elasticsearch index.

The program is embedded by explicit state passing.  Every call that leaves the
process (Elasticsearch, S3) and every `fmt.Printf` is recorded as an `Event`
in a trace; the answers of the outside world are fields of an `Env` over an
arbitrary world type `W`.  Go errors are embedded through their message
(`err.Error()`), which is what `%s` prints.
-/

namespace FlowlogsIngester

/-! ## Data model -/

/-- LogEntry represents a flowlog entry (`main.go`, lines 26-47). -/
structure LogEntry where
  Version : Int
  AccountID : String
  InterfaceID : String
  SourceAddr : String
  DestAddr : String
  SourcePort : String
  DestPort : String
  Protocol : String
  Packets : String
  Bytes : String
  Start : String
  End : String
  Action : String
  LogStatus : String
  InstanceID : String
  PacketSourceAddr : String
  PacketDestAddr : String
  SubnetID : String
  «Type» : String
  VPCID : String
deriving DecidableEq

/-- The index mapping sent with a create-index request (`main.go`, lines 49-69). -/
def mapping : String :=
  "\n\x7b\n    \"settings\" : \x7b\n\t\t\"number_of_shards\" : 1,\n\t\t\"number_of_replicas\" : 0\n    \x7d,\n" ++
  "    \"mappings\" : \x7b\n        \"properties\" : \x7b\n" ++
  "            \"start\" : \x7b \"type\" : \"date\", \"format\" : \"epoch_second\" \x7d,\n" ++
  "            \"end\" : \x7b \"type\" : \"date\", \"format\" : \"epoch_second\" \x7d,\n" ++
  "            \"srcaddr\" : \x7b \"type\" : \"ip\"\x7d,\n" ++
  "            \"dstaddr\" : \x7b \"type\" : \"ip\"\x7d,\n" ++
  "            \"pkt-srcaddr\" : \x7b \"type\" : \"ip\"\x7d,\n" ++
  "            \"pkt-dstaddr\" : \x7b \"type\" : \"ip\"\x7d,\n" ++
  "\t\t\t\"bytes\" : \x7b \"type\" : \"integer\"\x7d,\n" ++
  "\t\t\t\"packets\" : \x7b \"type\" : \"integer\"\x7d,\n" ++
  "\t\t\t\"dstport\" : \x7b \"type\" : \"integer\"\x7d,\n" ++
  "\t\t\t\"srcport\" : \x7b \"type\" : \"integer\"\x7d\n" ++
  "        \x7d\n    \x7d\n\x7d"

/-- The part of one `events.S3EventRecord` that the handler reads:
`record.AWSRegion`, `record.S3.Bucket.Name` and `record.S3.Object.Key`. -/
structure S3EventRecord where
  AWSRegion : String
  BucketName : String
  ObjectKey : String
deriving DecidableEq

/-- A `context.Context` as far as the program can tell contexts apart:
`context.Background()`, which is never done, or a context handed in by the
caller of the handler, which may already be cancelled or past its deadline. -/
inductive Context where
  | background
  | request (done : Bool)
deriving DecidableEq

/-- One action of a bulk request:
`elastic.NewBulkIndexRequest().Index(index).Doc(entry)`. -/
structure BulkIndexRequest where
  Index : String
  Doc : LogEntry
deriving DecidableEq

/-- What the program does to the outside world, in order.  A request to
Elasticsearch carries the context given to its `Do`; the S3 download is started
with `downloader.Download`, which takes no context. -/
inductive Event where
  | indexExists (ctx : Context) (index : String)
  | createIndex (ctx : Context) (index : String) (body : String)
  | download (bucket : String) (key : String) (region : String)
  | bulk (ctx : Context) (actions : List BulkIndexRequest)
  | flush (ctx : Context) (index : String)
  | print (msg : String)
deriving DecidableEq

/-- The local calendar date of an instant returned by `time.Now()`. -/
structure Date where
  year : Nat
  month : Nat
  day : Nat
deriving DecidableEq

/-- The outside world of the handler.  `W` is the state of the world (the
indexing service, the object store, the clock); each call answers and moves the
world on.  A failing call answers with the message of its error. -/
structure Env (W : Type) where
  /-- The call `os.Getenv`: the empty string for an unset variable. -/
  getenv : String → String
  /-- The date of `time.Now()`. -/
  now : W → Date
  /-- The verb `%q` of `fmt` on a string. -/
  quote : String → String
  /-- The call `elastic.NewClient` with sniffing and health checks off, from the
  URL and the signing credentials (key, secret, token, region): the error, if any. -/
  newClient : String → String → String → String → String → Option String
  /-- The call `esclient.IndexExists(index).Do(ctx)`. -/
  indexExists : W → Context → String → Except String Bool × W
  /-- The call `esclient.CreateIndex(index).BodyString(body).Do(ctx)`; the value
  is the field `Acknowledged` of the response. -/
  createIndex : W → Context → String → String → Except String Bool × W
  /-- The call `session.NewSession` for a region: the error, if any. -/
  newSession : String → Option String
  /-- The call `downloader.Download` for region, bucket and key. -/
  s3Download : W → String → String → String → Except String (List Nat) × W
  /-- The call `gzip.NewReader`, which reads the gzip header: the reader over
  the rest of the stream. -/
  gzipNewReader : List Nat → Except String (List Nat)
  /-- The call `gocsv.Unmarshal` on the gzip reader, with a space as delimiter. -/
  unmarshal : List Nat → Except String (List LogEntry)
  /-- The call `bulkRequest.Do(ctx)`. -/
  bulkDo : W → Context → List BulkIndexRequest → Except String Unit × W
  /-- The call `client.Flush().Index(index).Do(ctx)`. -/
  flushDo : W → Context → String → Except String Unit × W

/-! ## Formatting -/

/-- Go's `appendInt(b, x, width)` for a non-negative `x`: decimal digits, padded
with zeros on the left up to `width`. -/
def appendInt (x width : Nat) : String :=
  String.mk (List.replicate (width - (Nat.repr x).length) '0') ++ Nat.repr x

/-- The call `t.Format("2006-01-02")`: four-digit year, two-digit month,
two-digit day. -/
def Date.Format (t : Date) : String :=
  appendInt t.year 4 ++ "-" ++ appendInt t.month 2 ++ "-" ++ appendInt t.day 2

/-- The call `fmt.Sprintf("%s-%s-%s", a, b, c)`. -/
def sprintfIndex (a b c : String) : String :=
  a ++ "-" ++ b ++ "-" ++ c

/-! ## insertEntriesInES -/

/-- The loop of `insertEntriesInES` (lines 208-224): `acc` is `bulkRequest`. -/
def addEntries (index : String) :
    List BulkIndexRequest → List LogEntry → List BulkIndexRequest
  | acc, [] => acc
  | acc, entry :: rest =>
    -- Ignore invalid entries
    if entry.LogStatus != "OK" then addEntries index acc rest
    else if entry.«Type» != "IPv4" then addEntries index acc rest
    else if entry.Action != "ACCEPT" then addEntries index acc rest
    -- Add index request to bulk request
    else addEntries index (acc ++ [⟨index, entry⟩]) rest

/-- The function `insertEntriesInES` (lines 204-244): the returned error
(`none` is `nil`), the calls made, and the world afterwards. -/
def insertEntriesInES {W : Type} (env : Env W) (w : W) (ctx : Context)
    (index : String) (entries : List LogEntry) : Option String × List Event × W :=
  let bulkRequest := addEntries index [] entries
  -- Skip if there is no entry to index
  if bulkRequest.length = 0 then (none, [], w)
  else
    -- Bulk index entries
    match env.bulkDo w Context.background bulkRequest with
    | (Except.error err, w1) =>
      (some ("failed to bulk index entries: " ++ err),
        [Event.bulk Context.background bulkRequest], w1)
    | (Except.ok _, w1) =>
      -- Flush to make sure the documents got written.
      match env.flushDo w1 ctx index with
      | (Except.error err, w2) =>
        (some ("failed to flush index: " ++ err),
          [Event.bulk Context.background bulkRequest, Event.flush ctx index], w2)
      | (Except.ok _, w2) =>
        (none, [Event.bulk Context.background bulkRequest, Event.flush ctx index], w2)

/-! ## gunzipAndParseLogfile, downloadFromS3 -/

/-- The function `gunzipAndParseLogfile` (lines 176-202). -/
def gunzipAndParseLogfile {W : Type} (env : Env W) (logfile : List Nat) :
    Except String (List LogEntry) :=
  match env.gzipNewReader logfile with
  | Except.error err => Except.error err
  | Except.ok r =>
    match env.unmarshal r with
    | Except.error err => Except.error err
    | Except.ok entries => Except.ok entries

/-- The function `downloadFromS3` (lines 149-174). -/
def downloadFromS3 {W : Type} (env : Env W) (w : W) (bucket key region : String) :
    Except String (List Nat) × List Event × W :=
  match env.newSession region with
  | some err => (Except.error ("failed to create aws session: " ++ err), [], w)
  | none =>
    match env.s3Download w region bucket key with
    | (Except.error err, w1) =>
      (Except.error ("unable to download item " ++ env.quote key ++ " in bucket " ++
          env.quote bucket ++ ": " ++ err),
        [Event.download bucket key region], w1)
    | (Except.ok object, w1) => (Except.ok object, [Event.download bucket key region], w1)

/-! ## handler -/

/-- How one turn of the loop over `s3Event.Records` ends: `next` goes on with
the next record (`continue`, or the end of the body), `ret` is `return`. -/
inductive Flow where
  | next
  | ret
deriving DecidableEq

/-- The index part of the loop body (lines 105-122): `true` when the handler
goes on to the download, `false` when it returns. -/
def provisionIndex {W : Type} (env : Env W) (ctx : Context) (w : W) (index : String) :
    Bool × List Event × W :=
  -- Use the IndexExists service to check if a specified index exists.
  match env.indexExists w ctx index with
  | (Except.error err, w1) =>
    (false, [Event.indexExists ctx index,
      Event.print ("failed to check if index exists: " ++ err ++ "\n")], w1)
  | (Except.ok true, w1) => (true, [Event.indexExists ctx index], w1)
  | (Except.ok false, w1) =>
    -- Create index if it doesn't exists
    match env.createIndex w1 ctx index mapping with
    | (Except.error err, w2) =>
      (false, [Event.indexExists ctx index, Event.createIndex ctx index mapping,
        Event.print ("failed to create index: " ++ err ++ "\n")], w2)
    | (Except.ok false, w2) =>
      (false, [Event.indexExists ctx index, Event.createIndex ctx index mapping,
        Event.print "index creation not acknowledged: %!s(<nil>)\n"], w2)
    | (Except.ok true, w2) =>
      (true, [Event.indexExists ctx index, Event.createIndex ctx index mapping], w2)

/-- The index name built at line 103. -/
def buildIndexName {W : Type} (env : Env W) (w : W) (record : S3EventRecord) : String :=
  sprintfIndex (env.getenv "ES_INDEX") record.BucketName (env.now w).Format

/-- The body of the loop over `s3Event.Records` (lines 100-146). -/
def loopBody {W : Type} (env : Env W) (ctx : Context) (w : W) (record : S3EventRecord) :
    Flow × List Event × W :=
  -- Build index name
  let index := buildIndexName env w record
  match provisionIndex env ctx w index with
  | (false, tr, w1) => (Flow.ret, tr, w1)
  | (true, tr, w1) =>
    -- Download logfile from S3
    match downloadFromS3 env w1 record.BucketName record.ObjectKey record.AWSRegion with
    | (Except.error err, tr2, w2) =>
      (Flow.next,
        tr ++ tr2 ++ [Event.print ("failed to get logfile from S3: " ++ err ++ "\n")], w2)
    | (Except.ok logfile, tr2, w2) =>
      -- Decompress and parse logfile
      match gunzipAndParseLogfile env logfile with
      | Except.error err =>
        (Flow.next,
          tr ++ tr2 ++
            [Event.print ("failed to decompress and parse logfile: " ++ err ++ "\n")], w2)
      | Except.ok logEntries =>
        -- Insert logfile entries in ES
        match insertEntriesInES env w2 Context.background index logEntries with
        | (some err, tr3, w3) =>
          (Flow.next,
            tr ++ tr2 ++ tr3 ++
              [Event.print ("failed to insert entries in elasticsearch: " ++ err ++ "\n")], w3)
        | (none, tr3, w3) =>
          (Flow.next,
            tr ++ tr2 ++ tr3 ++
              [Event.print ("logfile " ++ env.quote record.ObjectKey ++ " inserted\n")], w3)

/-- The loop over `s3Event.Records` (line 100). -/
def processRecords {W : Type} (env : Env W) (ctx : Context) :
    W → List S3EventRecord → List Event × W
  | w, [] => ([], w)
  | w, record :: rest =>
    match loopBody env ctx w record with
    | (Flow.ret, tr, w1) => (tr, w1)
    | (Flow.next, tr, w1) =>
      ((tr ++ (processRecords env ctx w1 rest).1), (processRecords env ctx w1 rest).2)

/-- The variables checked at line 78, in order. -/
def requiredEnvVars : List String :=
  ["AWS_ACCESS_KEY_ID", "AWS_SECRET_ACCESS_KEY", "ES_HOST", "ES_REGION", "ES_INDEX"]

/-- The loop of lines 78-83: the first variable of the list that reads as the
empty string, if there is one. -/
def checkEnvVars (getenv : String → String) : List String → Option String
  | [] => none
  | envVar :: rest => if getenv envVar == "" then some envVar else checkEnvVars getenv rest

/-- The function `handler` (lines 75-147): the calls made and the world
afterwards. -/
def handler {W : Type} (env : Env W) (ctx : Context) (w : W) (s3Event : List S3EventRecord) :
    List Event × W :=
  -- Check env vars
  match checkEnvVars env.getenv requiredEnvVars with
  | some envVar => ([Event.print ("env var " ++ env.quote envVar ++ " must be defined")], w)
  | none =>
    -- Create ES client
    match env.newClient (env.getenv "ES_HOST") (env.getenv "AWS_ACCESS_KEY_ID")
        (env.getenv "AWS_SECRET_ACCESS_KEY") (env.getenv "AWS_SESSION_TOKEN")
        (env.getenv "ES_REGION") with
    | some err => ([Event.print ("error creating es client: " ++ err ++ "\n")], w)
    | none =>
      -- For each S3 object in event
      processRecords env ctx w s3Event

/-! ## An in-memory world

A small world in which the handler can be run: an indexing service that keeps
the names of its indices and the documents written, an object store, and a
clock.  A request made with a context that is already done fails and changes
nothing, as the Elasticsearch client does. -/

/-- The state of the in-memory world. -/
structure World where
  today : Date
  indices : List String
  objects : List (String × String × List Nat)
  docs : List BulkIndexRequest
  flushed : List String
deriving DecidableEq

/-- The flow-log row `2 1 eni-1 10.0.0.1 10.0.0.2 1 2 6 5 100 1000 1100 ACCEPT
status instance-1 10.0.0.1 10.0.0.2 subnet-1 IPv4 vpc-1`. -/
def sampleEntry (status : String) : LogEntry :=
  { Version := 2, AccountID := "1", InterfaceID := "eni-1", SourceAddr := "10.0.0.1",
    DestAddr := "10.0.0.2", SourcePort := "1", DestPort := "2", Protocol := "6",
    Packets := "5", Bytes := "100", Start := "1000", End := "1100", Action := "ACCEPT",
    LogStatus := status, InstanceID := "instance-1", PacketSourceAddr := "10.0.0.1",
    PacketDestAddr := "10.0.0.2", SubnetID := "subnet-1", «Type» := "IPv4",
    VPCID := "vpc-1" }

/-- The rows of an in-memory log file: the byte 1 stands for the sample row with
status `OK`, the byte 2 for the sample row with status `NODATA`; any other byte
is a malformed row. -/
def decodeRows : List Nat → Except String (List LogEntry)
  | [] => Except.ok []
  | b :: rest =>
    match decodeRows rest with
    | Except.error err => Except.error err
    | Except.ok rows =>
      if b = 1 then Except.ok (sampleEntry "OK" :: rows)
      else if b = 2 then Except.ok (sampleEntry "NODATA" :: rows)
      else Except.error "wrong number of fields"

/-- Whether a context is already cancelled or past its deadline. -/
def Context.isDone : Context → Bool
  | Context.background => false
  | Context.request done => done

/-- The in-memory world as an environment of the handler, for given values of
the environment variables; `acknowledge` tells whether the indexing service
acknowledges (and carries out) the creation of an index. -/
def memEnv (vars : String → String) (acknowledge : Bool) : Env World where
  getenv := vars
  now := fun w => w.today
  quote := fun s => "\"" ++ s ++ "\""
  newClient := fun _ _ _ _ _ => none
  indexExists := fun w ctx index =>
    if ctx.isDone then (Except.error "context canceled", w)
    else (Except.ok (decide (index ∈ w.indices)), w)
  createIndex := fun w ctx index _ =>
    if ctx.isDone then (Except.error "context canceled", w)
    else if acknowledge then (Except.ok true, { w with indices := index :: w.indices })
    else (Except.ok false, w)
  newSession := fun _ => none
  s3Download := fun w _ bucket key =>
    match w.objects.find? (fun o => o.1 == bucket && o.2.1 == key) with
    | some o => (Except.ok o.2.2, w)
    | none => (Except.error "NoSuchKey", w)
  gzipNewReader := fun logfile =>
    match logfile with
    | 31 :: 139 :: rest => Except.ok rest
    | _ => Except.error "gzip: invalid header"
  unmarshal := decodeRows
  bulkDo := fun w ctx actions =>
    if ctx.isDone then (Except.error "context canceled", w)
    else (Except.ok (), { w with docs := w.docs ++ actions })
  flushDo := fun w ctx index =>
    if ctx.isDone then (Except.error "context canceled", w)
    else (Except.ok (), { w with flushed := w.flushed ++ [index] })

/-- A complete configuration without a session token: `AWS_SESSION_TOKEN` is
unset, the index prefix is `flowlogs`. -/
def configNoToken (v : String) : String :=
  if v = "AWS_ACCESS_KEY_ID" then "AKIAEXAMPLE"
  else if v = "AWS_SECRET_ACCESS_KEY" then "secret"
  else if v = "ES_HOST" then "https://es.example.com"
  else if v = "ES_REGION" then "eu-west-1"
  else if v = "ES_INDEX" then "flowlogs"
  else ""

/-- The configuration `configNoToken` with `ES_HOST` unset. -/
def configNoHost (v : String) : String :=
  if v = "ES_HOST" then "" else configNoToken v

/-- A world on 2019-07-04 with no index yet and three
objects in the bucket `logs`: `good.gz` (a gzip file with one `OK` row and one
`NODATA` row), `bad.gz` (not a gzip file) and `nodata.gz` (a gzip file with one
`NODATA` row). -/
def world0 : World :=
  { today := { year := 2019, month := 7, day := 4 },
    indices := [],
    objects := [("logs", "good.gz", [31, 139, 1, 2]), ("logs", "bad.gz", [80, 75, 1, 2]),
      ("logs", "nodata.gz", [31, 139, 2])],
    docs := [],
    flushed := [] }

/-- The world `world0` once the index of the bucket `logs` for 2019-07-04 exists. -/
def world1 : World :=
  { world0 with indices := ["flowlogs-logs-2019-07-04"] }

/-! ## The filter, as the specification words it -/

/-- A record is eligible for indexing if and only if its log status is `OK`,
its traffic type is `IPv4` and its action is `ACCEPT`. -/
def Filter (r : LogEntry) : Prop :=
  r.LogStatus = "OK" ∧ r.«Type» = "IPv4" ∧ r.Action = "ACCEPT"

instance (r : LogEntry) : Decidable (Filter r) := by
  unfold Filter; infer_instance

/-- The index names an event addresses. -/
def Event.indices : Event → List String
  | Event.indexExists _ index => [index]
  | Event.createIndex _ index _ => [index]
  | Event.bulk _ actions => actions.map (fun a => a.Index)
  | Event.flush _ index => [index]
  | _ => []

/-- The context a call is issued with: `none` for a call that takes no context
(the download) and for a print. -/
def Event.context : Event → Option Context
  | Event.indexExists ctx _ => some ctx
  | Event.createIndex ctx _ _ => some ctx
  | Event.bulk ctx _ => some ctx
  | Event.flush ctx _ => some ctx
  | _ => none

/-- Whether an event is a request that writes to the index: a bulk write or a
flush. -/
def Event.isWrite : Event → Bool
  | Event.bulk _ _ => true
  | Event.flush _ _ => true
  | _ => false

/-- Whether an event is a create-index request. -/
def Event.isCreate : Event → Bool
  | Event.createIndex _ _ _ => true
  | _ => false

/-- Whether an event is a call that leaves the process (anything but a print). -/
def Event.isCall : Event → Bool
  | Event.print _ => false
  | _ => true

/-! ## Helper lemmas -/

theorem addEntries_acc (index : String) (entries : List LogEntry) :
    ∀ acc, addEntries index acc entries =
      acc ++ (entries.filter (fun e => decide (Filter e))).map (fun e => ⟨index, e⟩) := by
  induction entries with
  | nil => intro acc; simp [addEntries]
  | cons e rest ih =>
    intro acc
    by_cases h1 : e.LogStatus = "OK" <;> by_cases h2 : e.«Type» = "IPv4" <;>
      by_cases h3 : e.Action = "ACCEPT" <;>
      simp [addEntries, Filter, h1, h2, h3, ih]

theorem addEntries_nil (index : String) (entries : List LogEntry) :
    addEntries index [] entries =
      (entries.filter (fun e => decide (Filter e))).map (fun e => ⟨index, e⟩) := by
  simpa using addEntries_acc index entries []

theorem provisionIndex_trace {W : Type} (env : Env W) (ctx : Context) (w : W)
    (index : String) :
    ∀ ev ∈ (provisionIndex env ctx w index).2.1,
      ev = Event.indexExists ctx index ∨ ev = Event.createIndex ctx index mapping ∨
        ∃ m, ev = Event.print m := by
  intro ev hev
  unfold provisionIndex at hev
  split at hev
  · simp at hev; rcases hev with h | h <;> simp [h]
  · simp at hev; simp [hev]
  · split at hev
    · simp at hev
      rcases hev with h | h | h <;> simp [h]
    · simp at hev
      rcases hev with h | h | h <;> simp [h]
    · simp at hev
      rcases hev with h | h <;> simp [h]

theorem downloadFromS3_trace {W : Type} (env : Env W) (w : W) (bucket key region : String) :
    ∀ ev ∈ (downloadFromS3 env w bucket key region).2.1,
      ev = Event.download bucket key region := by
  intro ev hev
  unfold downloadFromS3 at hev
  split at hev
  · simp at hev
  · split at hev <;> simpa using hev

theorem insertEntriesInES_trace {W : Type} (env : Env W) (w : W) (ctx : Context)
    (index : String) (entries : List LogEntry) :
    ∀ ev ∈ (insertEntriesInES env w ctx index entries).2.1,
      ev = Event.bulk Context.background (addEntries index [] entries) ∨
        ev = Event.flush ctx index := by
  intro ev hev
  unfold insertEntriesInES at hev
  simp only at hev
  split at hev
  · simp at hev
  · split at hev
    · simp at hev; simp [hev]
    · split at hev <;>
      · simp at hev
        rcases hev with h | h <;> simp [h]

theorem loopBody_trace {W : Type} (env : Env W) (ctx : Context) (w : W)
    (record : S3EventRecord) :
    ∀ ev ∈ (loopBody env ctx w record).2.1,
      ev = Event.indexExists ctx (buildIndexName env w record) ∨
      ev = Event.createIndex ctx (buildIndexName env w record) mapping ∨
      ev = Event.download record.BucketName record.ObjectKey record.AWSRegion ∨
      (∃ entries, ev = Event.bulk Context.background
        (addEntries (buildIndexName env w record) [] entries)) ∨
      ev = Event.flush Context.background (buildIndexName env w record) ∨
      ∃ m, ev = Event.print m := by
  intro ev hev
  have hp := provisionIndex_trace env ctx w (buildIndexName env w record)
  unfold loopBody at hev
  simp only at hev
  split at hev
  next tr w1 hprov =>
    rw [hprov] at hp
    rcases hp ev hev with h | h | h
    · exact Or.inl h
    · exact Or.inr (Or.inl h)
    · exact Or.inr (Or.inr (Or.inr (Or.inr (Or.inr h))))
  next tr w1 hprov =>
    rw [hprov] at hp
    have hprovcase : ev ∈ tr → _ := fun h => hp ev h
    have hd := downloadFromS3_trace env w1 record.BucketName record.ObjectKey record.AWSRegion
    split at hev
    next err tr2 w2 hdl =>
      rw [hdl] at hd
      simp only [List.mem_append, List.mem_singleton] at hev
      rcases hev with (h | h) | h
      · rcases hprovcase h with h | h | h
        · exact Or.inl h
        · exact Or.inr (Or.inl h)
        · exact Or.inr (Or.inr (Or.inr (Or.inr (Or.inr h))))
      · exact Or.inr (Or.inr (Or.inl (hd ev h)))
      · exact Or.inr (Or.inr (Or.inr (Or.inr (Or.inr ⟨_, h⟩))))
    next logfile tr2 w2 hdl =>
      rw [hdl] at hd
      split at hev
      next err hparse =>
        simp only [List.mem_append, List.mem_singleton] at hev
        rcases hev with (h | h) | h
        · rcases hprovcase h with h | h | h
          · exact Or.inl h
          · exact Or.inr (Or.inl h)
          · exact Or.inr (Or.inr (Or.inr (Or.inr (Or.inr h))))
        · exact Or.inr (Or.inr (Or.inl (hd ev h)))
        · exact Or.inr (Or.inr (Or.inr (Or.inr (Or.inr ⟨_, h⟩))))
      next logEntries hparse =>
        have hi := insertEntriesInES_trace env w2 Context.background
          (buildIndexName env w record) logEntries
        split at hev
        all_goals
          rename_i hins
          rw [hins] at hi
          simp only [List.mem_append, List.mem_singleton] at hev
          rcases hev with ((h | h) | h) | h
          · rcases hprovcase h with h | h | h
            · exact Or.inl h
            · exact Or.inr (Or.inl h)
            · exact Or.inr (Or.inr (Or.inr (Or.inr (Or.inr h))))
          · exact Or.inr (Or.inr (Or.inl (hd ev h)))
          · rcases hi ev h with h | h
            · exact Or.inr (Or.inr (Or.inr (Or.inl ⟨_, h⟩)))
            · exact Or.inr (Or.inr (Or.inr (Or.inr (Or.inl h))))
          · exact Or.inr (Or.inr (Or.inr (Or.inr (Or.inr ⟨_, h⟩))))

theorem processRecords_cons_next {W : Type} (env : Env W) (ctx : Context) (w w1 : W)
    (record : S3EventRecord) (rest : List S3EventRecord) (tr : List Event)
    (h : loopBody env ctx w record = (Flow.next, tr, w1)) :
    processRecords env ctx w (record :: rest) =
      (tr ++ (processRecords env ctx w1 rest).1, (processRecords env ctx w1 rest).2) := by
  simp [processRecords, h]

theorem processRecords_cons_ret {W : Type} (env : Env W) (ctx : Context) (w w1 : W)
    (record : S3EventRecord) (rest : List S3EventRecord) (tr : List Event)
    (h : loopBody env ctx w record = (Flow.ret, tr, w1)) :
    processRecords env ctx w (record :: rest) = (tr, w1) := by
  simp [processRecords, h]

theorem processRecords_trace {W : Type} (env : Env W) (ctx : Context)
    (records : List S3EventRecord) :
    ∀ w, ∀ ev ∈ (processRecords env ctx w records).1,
      ∃ v, ∃ record ∈ records, ev ∈ (loopBody env ctx v record).2.1 := by
  induction records with
  | nil => intro w ev hev; simp [processRecords] at hev
  | cons record rest ih =>
    intro w ev hev
    rcases hb : loopBody env ctx w record with ⟨flow, tr, w1⟩
    cases flow with
    | ret =>
      rw [processRecords_cons_ret env ctx w w1 record rest tr hb] at hev
      exact ⟨w, record, by simp, by rw [hb]; exact hev⟩
    | next =>
      rw [processRecords_cons_next env ctx w w1 record rest tr hb] at hev
      simp only [List.mem_append] at hev
      rcases hev with h | h
      · exact ⟨w, record, by simp, by rw [hb]; exact h⟩
      · obtain ⟨v, r, hr, hmem⟩ := ih w1 ev h
        exact ⟨v, r, List.mem_cons_of_mem _ hr, hmem⟩

theorem handler_trace {W : Type} (env : Env W) (ctx : Context) (w : W)
    (s3Event : List S3EventRecord) :
    ∀ ev ∈ (handler env ctx w s3Event).1,
      (∃ m, ev = Event.print m) ∨
        ∃ v, ∃ record ∈ s3Event, ev ∈ (loopBody env ctx v record).2.1 := by
  intro ev hev
  unfold handler at hev
  split at hev
  · simp at hev; exact Or.inl ⟨_, hev⟩
  · split at hev
    · simp at hev; exact Or.inl ⟨_, hev⟩
    · exact Or.inr (processRecords_trace env ctx s3Event w ev hev)

theorem appendInt_length (x width : Nat) (hw : 0 < width) (hx : x < 10 ^ width) :
    (appendInt x width).length = width := by
  have h := Nat.repr_length x width hw hx
  unfold appendInt
  simp only [String.length_append, String.length_mk, List.length_replicate]
  omega

theorem Date.Format_length (t : Date) (hy : t.year < 10000) (hm : t.month < 100)
    (hd : t.day < 100) : t.Format.length = 10 := by
  unfold Date.Format
  simp only [String.length_append, appendInt_length t.year 4 (by decide) (by simpa using hy),
    appendInt_length t.month 2 (by decide) (by simpa using hm),
    appendInt_length t.day 2 (by decide) (by simpa using hd)]
  rfl

/-- When the index step of a turn fails, the handler returns: the notifications
after it are not processed. -/
theorem processRecords_stops_on_index_failure {W : Type} (env : Env W) (ctx : Context)
    (w w1 : W) (record : S3EventRecord) (rest : List S3EventRecord) (tr : List Event)
    (h : provisionIndex env ctx w (buildIndexName env w record) = (false, tr, w1)) :
    processRecords env ctx w (record :: rest) = (tr, w1) := by
  apply processRecords_cons_ret
  unfold loopBody
  simp only [h]

/-- When the index step of a turn succeeds, the turn ends with `next` whatever
happens in the download, the parsing and the insertion: the notifications after
it are processed. -/
theorem processRecords_continues_after_index_step {W : Type} (env : Env W) (ctx : Context)
    (w w1 : W) (record : S3EventRecord) (rest : List S3EventRecord) (tr : List Event)
    (h : provisionIndex env ctx w (buildIndexName env w record) = (true, tr, w1)) :
    ∃ tr2 w2, loopBody env ctx w record = (Flow.next, tr2, w2) ∧
      processRecords env ctx w (record :: rest) =
        (tr2 ++ (processRecords env ctx w2 rest).1, (processRecords env ctx w2 rest).2) := by
  have hb : ∃ tr2 w2, loopBody env ctx w record = (Flow.next, tr2, w2) := by
    unfold loopBody
    simp only [h]
    split
    · exact ⟨_, _, rfl⟩
    · split
      · exact ⟨_, _, rfl⟩
      · split <;> exact ⟨_, _, rfl⟩
  obtain ⟨tr2, w2, hb⟩ := hb
  exact ⟨tr2, w2, hb, processRecords_cons_next env ctx w w2 record rest tr2 hb⟩

theorem checkEnvVars_some (getenv : String → String) (vars : List String) :
    (∃ v ∈ vars, getenv v = "") → ∃ v ∈ vars, checkEnvVars getenv vars = some v := by
  induction vars with
  | nil => simp
  | cons x rest ih =>
    intro h
    by_cases hx : getenv x = ""
    · exact ⟨x, by simp, by simp [checkEnvVars, hx]⟩
    · have : ∃ v ∈ rest, getenv v = "" := by
        obtain ⟨v, hv, hv2⟩ := h
        rcases List.mem_cons.mp hv with h1 | h1
        · exact absurd (h1 ▸ hv2) hx
        · exact ⟨v, h1, hv2⟩
      obtain ⟨v, hv, hv2⟩ := ih this
      exact ⟨v, List.mem_cons_of_mem _ hv, by simp [checkEnvVars, hx, hv2]⟩

theorem checkEnvVars_none (getenv : String → String) (vars : List String) :
    (∀ v ∈ vars, getenv v ≠ "") → checkEnvVars getenv vars = none := by
  induction vars with
  | nil => simp [checkEnvVars]
  | cons x rest ih =>
    intro h
    have hx : getenv x ≠ "" := h x (by simp)
    simp [checkEnvVars, hx]
    exact ih (fun v hv => h v (List.mem_cons_of_mem _ hv))

/-! ## The bulk loader -/

/-- C1. The actions that `insertEntriesInES` puts in the bulk request are the
entries with `LogStatus = "OK"`, `Type = "IPv4"` and `Action = "ACCEPT"`, each
once and in their original order, all addressed to the given index; an entry
failing one of the three tests is left out.  Any bulk write the function issues
carries exactly this list. -/
theorem insertEntriesInES_adds_exactly_eligible {W : Type} (env : Env W) (w : W)
    (ctx : Context) (index : String) (entries : List LogEntry) :
    addEntries index [] entries =
        (entries.filter (fun e => decide (e.LogStatus = "OK" ∧ e.«Type» = "IPv4" ∧
          e.Action = "ACCEPT"))).map (fun e => BulkIndexRequest.mk index e) ∧
      ∀ c actions, Event.bulk c actions ∈ (insertEntriesInES env w ctx index entries).2.1 →
        actions = (entries.filter (fun e => decide (e.LogStatus = "OK" ∧ e.«Type» = "IPv4" ∧
          e.Action = "ACCEPT"))).map (fun e => BulkIndexRequest.mk index e) := by
  have key := addEntries_nil index entries
  simp only [Filter] at key
  refine ⟨key, ?_⟩
  intro c actions hmem
  unfold insertEntriesInES at hmem
  simp only at hmem
  split at hmem
  · simp at hmem
  · split at hmem
    · simp at hmem
      rw [hmem.2]; exact key
    · split at hmem <;>
      · simp at hmem
        rw [hmem.2]; exact key

/-- C4. When no entry passes the filter (the empty list included),
`insertEntriesInES` makes no call at all, leaves the world as it is and
returns `nil`. -/
theorem insertEntriesInES_no_eligible {W : Type} (env : Env W) (w : W)
    (ctx : Context) (index : String) (entries : List LogEntry)
    (h : ∀ e ∈ entries, ¬ Filter e) :
    insertEntriesInES env w ctx index entries = (none, [], w) := by
  have hfil : entries.filter (fun e => decide (Filter e)) = [] := by
    rw [List.filter_eq_nil_iff]
    intro e he
    simpa using h e he
  unfold insertEntriesInES
  simp [addEntries_nil, hfil]

/-- C5. When at least one entry passes the filter, `insertEntriesInES` issues
one bulk write holding all eligible entries.  If that write fails, nothing else
is issued and the bulk-index error is returned.  If it succeeds, one flush of
the same index follows; a failing flush gives the flush error, and `nil` is
returned exactly when both the bulk write and the flush succeeded. -/
theorem insertEntriesInES_eligible {W : Type} (env : Env W) (w : W)
    (ctx : Context) (index : String) (entries : List LogEntry)
    (h : ∃ e ∈ entries, Filter e) :
    let docs := (entries.filter (fun e => decide (Filter e))).map
      (fun e => BulkIndexRequest.mk index e)
    let res := insertEntriesInES env w ctx index entries
    let b := env.bulkDo w Context.background docs
    let f := env.flushDo b.2 ctx index
    (∀ err, b.1 = Except.error err →
        res = (some ("failed to bulk index entries: " ++ err),
          [Event.bulk Context.background docs], b.2)) ∧
      (b.1 = Except.ok () →
        res.2.1 = [Event.bulk Context.background docs, Event.flush ctx index] ∧
        res.2.2 = f.2 ∧
        (∀ err, f.1 = Except.error err → res.1 = some ("failed to flush index: " ++ err)) ∧
        (f.1 = Except.ok () → res.1 = none)) ∧
      (res.1 = none ↔ b.1 = Except.ok () ∧ f.1 = Except.ok ()) := by
  intro docs res b f
  have hne : (addEntries index [] entries).length ≠ 0 := by
    rw [addEntries_nil]
    obtain ⟨e, he, hf⟩ := h
    have : e ∈ entries.filter (fun e => decide (Filter e)) := by
      simp [List.mem_filter, he, hf]
    intro h0
    simp only [List.length_map] at h0
    rw [List.length_eq_zero] at h0
    rw [h0] at this
    simp at this
  have hres : res = insertEntriesInES env w ctx index entries := rfl
  unfold insertEntriesInES at hres
  simp only [hne, if_false] at hres
  rw [addEntries_nil] at hres
  change res = (match b with
    | (Except.error err, w1) => _
    | (Except.ok _, w1) => match env.flushDo w1 ctx index with
      | (Except.error err, w2) => _
      | (Except.ok _, w2) => _) at hres
  rcases hb : b with ⟨rb, w1⟩
  rw [hb] at hres
  have hf : f = env.flushDo b.2 ctx index := rfl
  rw [hb] at hf
  cases rb with
  | error e1 =>
    simp only at hres
    simp [hres]
  | ok u =>
    simp only at hres hf
    rw [← hf] at hres
    rcases hf2 : f with ⟨rf, w2⟩
    rw [hf2] at hres
    cases rf with
    | error e2 => simp only at hres; simp [hres]
    | ok u2 => simp only at hres; simp [hres]

/-- Witness of C4: a list holding a `NODATA` row and a row with an empty status. -/
theorem insertEntriesInES_no_eligible_witness :
    (∀ e ∈ [sampleEntry "NODATA", sampleEntry ""], ¬ Filter e) ∧
      insertEntriesInES (memEnv configNoToken true) world0 (Context.request false)
        "flowlogs-logs-2019-07-04" [sampleEntry "NODATA", sampleEntry ""] = (none, [], world0) :=
  ⟨by decide, insertEntriesInES_no_eligible (memEnv configNoToken true) world0 (Context.request false)
    "flowlogs-logs-2019-07-04" [sampleEntry "NODATA", sampleEntry ""] (by decide)⟩

/-- Witness of C5: an `OK` row followed by a `NODATA` row, loaded into the
in-memory world. -/
theorem insertEntriesInES_eligible_witness :
    (∃ e ∈ [sampleEntry "OK", sampleEntry "NODATA"], Filter e) ∧
      ((insertEntriesInES (memEnv configNoToken true) world0 (Context.request false)
        "flowlogs-logs-2019-07-04" [sampleEntry "OK", sampleEntry "NODATA"]).1 = none ↔
        ((memEnv configNoToken true).bulkDo world0 Context.background
            [⟨"flowlogs-logs-2019-07-04", sampleEntry "OK"⟩]).1 = Except.ok () ∧
          ((memEnv configNoToken true).flushDo
            ((memEnv configNoToken true).bulkDo world0 Context.background
              [⟨"flowlogs-logs-2019-07-04", sampleEntry "OK"⟩]).2
            (Context.request false) "flowlogs-logs-2019-07-04").1 = Except.ok ()) :=
  ⟨⟨sampleEntry "OK", by decide, by decide⟩,
    (insertEntriesInES_eligible (memEnv configNoToken true) world0 (Context.request false)
      "flowlogs-logs-2019-07-04" [sampleEntry "OK", sampleEntry "NODATA"]
      ⟨sampleEntry "OK", by decide, by decide⟩).2.2⟩

/-! ## Configuration -/

/-- C7. If one of `AWS_ACCESS_KEY_ID`, `AWS_SECRET_ACCESS_KEY`, `ES_HOST`,
`ES_REGION`, `ES_INDEX` is unset or empty, the handler only prints which one and
returns: the world is untouched and no call is made, whatever the notifications.
`AWS_SESSION_TOKEN` is not among the checked variables: when the five are set
and the client is created, the handler goes on to the notifications, whatever
the value of the token. -/
theorem handler_missing_config {W : Type} (env : Env W) (ctx : Context) (w : W)
    (s3Event : List S3EventRecord) :
    ((∃ v ∈ requiredEnvVars, env.getenv v = "") →
      (handler env ctx w s3Event).2 = w ∧
      (∀ ev ∈ (handler env ctx w s3Event).1, ev.isCall = false) ∧
      ∃ v ∈ requiredEnvVars, (handler env ctx w s3Event).1 =
        [Event.print ("env var " ++ env.quote v ++ " must be defined")]) ∧
    ((∀ v ∈ requiredEnvVars, env.getenv v ≠ "") →
      env.newClient (env.getenv "ES_HOST") (env.getenv "AWS_ACCESS_KEY_ID")
        (env.getenv "AWS_SECRET_ACCESS_KEY") (env.getenv "AWS_SESSION_TOKEN")
        (env.getenv "ES_REGION") = none →
      handler env ctx w s3Event = processRecords env ctx w s3Event) ∧
    "AWS_SESSION_TOKEN" ∉ requiredEnvVars := by
  refine ⟨?_, ?_, by decide⟩
  · intro h
    obtain ⟨v, hv, hc⟩ := checkEnvVars_some env.getenv requiredEnvVars h
    have hh : handler env ctx w s3Event =
        ([Event.print ("env var " ++ env.quote v ++ " must be defined")], w) := by
      simp [handler, hc]
    refine ⟨by rw [hh], ?_, v, hv, by rw [hh]⟩
    intro ev hev
    rw [hh] at hev
    simp at hev
    rw [hev]
    rfl
  · intro h hc
    have hn := checkEnvVars_none env.getenv requiredEnvVars h
    simp [handler, hn, hc]

/-- Witness of C7: with `ES_HOST` unset, two notifications are left untouched;
with the five variables set and no session token, the handler reaches the
notifications. -/
theorem handler_missing_config_witness :
    ((∃ v ∈ requiredEnvVars, (memEnv configNoHost true).getenv v = "") ∧
      (handler (memEnv configNoHost true) (Context.request false) world0
        [⟨"eu-west-1", "logs", "good.gz"⟩, ⟨"eu-west-1", "logs", "bad.gz"⟩]).2 = world0) ∧
    ((∀ v ∈ requiredEnvVars, (memEnv configNoToken true).getenv v ≠ "") ∧
      (memEnv configNoToken true).getenv "AWS_SESSION_TOKEN" = "" ∧
      handler (memEnv configNoToken true) (Context.request false) world0
          [⟨"eu-west-1", "logs", "good.gz"⟩] =
        processRecords (memEnv configNoToken true) (Context.request false) world0
          [⟨"eu-west-1", "logs", "good.gz"⟩]) :=
  ⟨⟨⟨"ES_HOST", by decide, by decide⟩,
      ((handler_missing_config (memEnv configNoHost true) (Context.request false) world0
        [⟨"eu-west-1", "logs", "good.gz"⟩, ⟨"eu-west-1", "logs", "bad.gz"⟩]).1
        ⟨"ES_HOST", by decide, by decide⟩).1⟩,
    ⟨by decide, by decide,
      (handler_missing_config (memEnv configNoToken true) (Context.request false) world0
        [⟨"eu-west-1", "logs", "good.gz"⟩]).2.1 (by decide) rfl⟩⟩

/-! ## Index provisioning -/

/-- C8. When the index of a notification does not exist and the create-index
response is not acknowledged, the handler prints that the creation was not
acknowledged and stops there: the calls made from this notification on are the
existence check and the create request, and neither a bulk write nor a flush. -/
theorem handler_create_not_acknowledged {W : Type} (env : Env W) (ctx : Context) (w : W)
    (record : S3EventRecord) (rest : List S3EventRecord)
    (hex : (env.indexExists w ctx (buildIndexName env w record)).1 = Except.ok false)
    (hcr : (env.createIndex (env.indexExists w ctx (buildIndexName env w record)).2 ctx
      (buildIndexName env w record) mapping).1 = Except.ok false) :
    (processRecords env ctx w (record :: rest)).1 =
        [Event.indexExists ctx (buildIndexName env w record),
          Event.createIndex ctx (buildIndexName env w record) mapping,
          Event.print "index creation not acknowledged: %!s(<nil>)\n"] ∧
      ∀ ev ∈ (processRecords env ctx w (record :: rest)).1, ev.isWrite = false := by
  have hprov : ∃ w2, provisionIndex env ctx w (buildIndexName env w record) =
      (false, [Event.indexExists ctx (buildIndexName env w record),
          Event.createIndex ctx (buildIndexName env w record) mapping,
          Event.print "index creation not acknowledged: %!s(<nil>)\n"], w2) := by
    unfold provisionIndex
    rcases h1 : env.indexExists w ctx (buildIndexName env w record) with ⟨r1, w1⟩
    rw [h1] at hex hcr
    simp only at hex hcr
    subst hex
    simp only
    rcases h2 : env.createIndex w1 ctx (buildIndexName env w record) mapping with ⟨r2, w2⟩
    rw [h2] at hcr
    simp only at hcr
    subst hcr
    exact ⟨w2, rfl⟩
  obtain ⟨w2, hprov⟩ := hprov
  have hbody : loopBody env ctx w record =
      (Flow.ret, [Event.indexExists ctx (buildIndexName env w record),
          Event.createIndex ctx (buildIndexName env w record) mapping,
          Event.print "index creation not acknowledged: %!s(<nil>)\n"], w2) := by
    unfold loopBody
    simp only [hprov]
  rw [processRecords_cons_ret env ctx w w2 record rest _ hbody]
  refine ⟨rfl, ?_⟩
  intro ev hev
  simp at hev
  rcases hev with h | h | h <;> rw [h] <;> rfl

/-- Witness of C8: a service that does not acknowledge creation, with a second
notification waiting. -/
theorem handler_create_not_acknowledged_witness :
    ((memEnv configNoToken false).indexExists world0 (Context.request false)
        "flowlogs-logs-2019-07-04").1 = Except.ok false ∧
      (processRecords (memEnv configNoToken false) (Context.request false) world0
        [⟨"eu-west-1", "logs", "good.gz"⟩, ⟨"eu-west-1", "logs", "nodata.gz"⟩]).1 =
        [Event.indexExists (Context.request false) "flowlogs-logs-2019-07-04",
          Event.createIndex (Context.request false) "flowlogs-logs-2019-07-04" mapping,
          Event.print "index creation not acknowledged: %!s(<nil>)\n"] :=
  ⟨rfl, (handler_create_not_acknowledged (memEnv configNoToken false) (Context.request false)
    world0 ⟨"eu-west-1", "logs", "good.gz"⟩
    [⟨"eu-west-1", "logs", "nodata.gz"⟩] rfl rfl).1⟩

/-- C6. Over an indexing service whose existing index names are part of its
state (`names`), whose existence check answers from that state and whose create
request is acknowledged and adds the name: two runs in a row of the index step
of the handler for the same name both succeed, issue at most one create request
in total, and the second run issues the existence check only. -/
theorem provisionIndex_twice {W : Type} (env : Env W) (names : W → List String)
    (ctx : Context) (w : W) (index : String)
    (hex : ∀ v, env.indexExists v ctx index = (Except.ok (decide (index ∈ names v)), v))
    (hack : ∀ v, (env.createIndex v ctx index mapping).1 = Except.ok true)
    (hadd : ∀ v, (env.createIndex v ctx index mapping).1 = Except.ok true →
      index ∈ names (env.createIndex v ctx index mapping).2) :
    (provisionIndex env ctx w index).1 = true ∧
      (provisionIndex env ctx (provisionIndex env ctx w index).2.2 index).1 = true ∧
      ((provisionIndex env ctx w index).2.1 ++
        (provisionIndex env ctx (provisionIndex env ctx w index).2.2 index).2.1).countP
          Event.isCreate ≤ 1 ∧
      (provisionIndex env ctx (provisionIndex env ctx w index).2.2 index).2.1 =
        [Event.indexExists ctx index] := by
  have hin : ∀ v, index ∈ names v →
      provisionIndex env ctx v index = (true, [Event.indexExists ctx index], v) := by
    intro v hv
    unfold provisionIndex
    rw [hex v]
    simp [hv]
  have hout : ∀ v, index ∉ names v →
      provisionIndex env ctx v index =
        (true, [Event.indexExists ctx index, Event.createIndex ctx index mapping],
          (env.createIndex v ctx index mapping).2) := by
    intro v hv
    unfold provisionIndex
    rw [hex v]
    simp only [hv, decide_False]
    have h1 := hack v
    rcases h2 : env.createIndex v ctx index mapping with ⟨r2, w2⟩
    rw [h2] at h1
    simp only at h1
    subst h1
    rfl
  by_cases hw : index ∈ names w
  · rw [hin w hw]
    simp only
    rw [hin w hw]
    simp [Event.isCreate]
  · rw [hout w hw]
    simp only
    rw [hin _ (hadd w (hack w))]
    simp [Event.isCreate, List.countP_cons]

/-- Witness of C6: the in-memory service, which acknowledges, starting without
the index. -/
theorem provisionIndex_twice_witness :
    (provisionIndex (memEnv configNoToken true) (Context.request false) world0
        "flowlogs-logs-2019-07-04").1 = true ∧
      (provisionIndex (memEnv configNoToken true) (Context.request false)
        (provisionIndex (memEnv configNoToken true) (Context.request false) world0
          "flowlogs-logs-2019-07-04").2.2 "flowlogs-logs-2019-07-04").1 = true ∧
      ((provisionIndex (memEnv configNoToken true) (Context.request false) world0
          "flowlogs-logs-2019-07-04").2.1 ++
        (provisionIndex (memEnv configNoToken true) (Context.request false)
          (provisionIndex (memEnv configNoToken true) (Context.request false) world0
            "flowlogs-logs-2019-07-04").2.2 "flowlogs-logs-2019-07-04").2.1).countP
          Event.isCreate ≤ 1 ∧
      (provisionIndex (memEnv configNoToken true) (Context.request false)
        (provisionIndex (memEnv configNoToken true) (Context.request false) world0
          "flowlogs-logs-2019-07-04").2.2 "flowlogs-logs-2019-07-04").2.1 =
        [Event.indexExists (Context.request false) "flowlogs-logs-2019-07-04"] :=
  provisionIndex_twice (memEnv configNoToken true)
    (fun v => v.indices) (Context.request false) world0 "flowlogs-logs-2019-07-04"
    (fun _ => rfl) (fun _ => rfl) (fun v _ => by simp [memEnv, Context.isDone])

/-! ## Order of the steps -/

/-- C3, as stated, fails: the object `bad.gz` is not a gzip stream and its
processing ends in the decompression error, yet the handler has issued a
create-index request before downloading it, and the index exists afterwards. -/
theorem handler_not_gzip_creates_index :
    (memEnv configNoToken true).gzipNewReader [80, 75, 1, 2] =
        Except.error "gzip: invalid header" ∧
      handler (memEnv configNoToken true) (Context.request false) world0
          [⟨"eu-west-1", "logs", "bad.gz"⟩] =
        ([Event.indexExists (Context.request false) "flowlogs-logs-2019-07-04",
          Event.createIndex (Context.request false) "flowlogs-logs-2019-07-04" mapping,
          Event.download "logs" "bad.gz" "eu-west-1",
          Event.print "failed to decompress and parse logfile: gzip: invalid header\n"],
          world1) ∧
      ¬ ∀ ev ∈ (handler (memEnv configNoToken true) (Context.request false) world0
          [⟨"eu-west-1", "logs", "bad.gz"⟩]).1, ev.isCreate = false := by
  refine ⟨rfl, rfl, ?_⟩
  intro h
  have h2 := h (Event.createIndex (Context.request false) "flowlogs-logs-2019-07-04" mapping)
    (by
      have ht : (handler (memEnv configNoToken true) (Context.request false) world0
          [⟨"eu-west-1", "logs", "bad.gz"⟩]).1 =
        [Event.indexExists (Context.request false) "flowlogs-logs-2019-07-04",
          Event.createIndex (Context.request false) "flowlogs-logs-2019-07-04" mapping,
          Event.download "logs" "bad.gz" "eu-west-1",
          Event.print "failed to decompress and parse logfile: gzip: invalid header\n"] := rfl
      rw [ht]
      simp)
  simp [Event.isCreate] at h2

/-- C3, amended.  The index step comes first in the loop body.  When it and the
download have succeeded and the object is not a gzip stream, the turn ends with
the decompression error printed and goes on to the next notification; its calls
are those of the index step followed by the download: no bulk write and no flush.
The existence check has been issued, and so has the create request when the
check answered that the index was absent. -/
theorem loopBody_not_gzip {W : Type} (env : Env W) (ctx : Context) (w w1 w2 : W)
    (record : S3EventRecord) (tr tr2 : List Event) (logfile : List Nat) (err : String)
    (hprov : provisionIndex env ctx w (buildIndexName env w record) = (true, tr, w1))
    (hdl : downloadFromS3 env w1 record.BucketName record.ObjectKey record.AWSRegion =
      (Except.ok logfile, tr2, w2))
    (hgz : env.gzipNewReader logfile = Except.error err) :
    loopBody env ctx w record =
        (Flow.next, tr ++ tr2 ++
          [Event.print ("failed to decompress and parse logfile: " ++ err ++ "\n")], w2) ∧
      (∀ ev ∈ (loopBody env ctx w record).2.1, ev.isWrite = false) ∧
      Event.indexExists ctx (buildIndexName env w record) ∈ tr ∧
      ((env.indexExists w ctx (buildIndexName env w record)).1 = Except.ok false →
        Event.createIndex ctx (buildIndexName env w record) mapping ∈ tr) := by
  have hparse : gunzipAndParseLogfile env logfile = Except.error err := by
    unfold gunzipAndParseLogfile
    rw [hgz]
  have hbody : loopBody env ctx w record =
      (Flow.next, tr ++ tr2 ++
        [Event.print ("failed to decompress and parse logfile: " ++ err ++ "\n")], w2) := by
    unfold loopBody
    simp only [hprov, hdl, hparse]
  have htr := provisionIndex_trace env ctx w (buildIndexName env w record)
  have htr2 := downloadFromS3_trace env w1 record.BucketName record.ObjectKey record.AWSRegion
  rw [hprov] at htr
  rw [hdl] at htr2
  refine ⟨hbody, ?_, ?_, ?_⟩
  · intro ev hev
    rw [hbody] at hev
    simp only [List.mem_append, List.mem_singleton] at hev
    rcases hev with (h | h) | h
    · rcases htr ev h with h | h | ⟨m, h⟩ <;> rw [h] <;> rfl
    · rw [htr2 ev h]; rfl
    · rw [h]; rfl
  · unfold provisionIndex at hprov
    split at hprov
    · simp at hprov
    · simp at hprov; simp [← hprov.1]
    · split at hprov <;> simp at hprov
      simp [← hprov.1]
  · intro hno
    unfold provisionIndex at hprov
    rcases h1 : env.indexExists w ctx (buildIndexName env w record) with ⟨r1, v1⟩
    rw [h1] at hprov hno
    simp only at hno
    subst hno
    simp only at hprov
    split at hprov <;> simp at hprov
    simp [← hprov.1]

/-- Witness of C3, amended: the object `bad.gz` in a world without the index. -/
theorem loopBody_not_gzip_witness :
    loopBody (memEnv configNoToken true) (Context.request false) world0
        ⟨"eu-west-1", "logs", "bad.gz"⟩ =
      (Flow.next,
        [Event.indexExists (Context.request false) "flowlogs-logs-2019-07-04",
            Event.createIndex (Context.request false) "flowlogs-logs-2019-07-04" mapping] ++
          [Event.download "logs" "bad.gz" "eu-west-1"] ++
          [Event.print ("failed to decompress and parse logfile: " ++
            "gzip: invalid header" ++ "\n")], world1) :=
  (loopBody_not_gzip (memEnv configNoToken true) (Context.request false) world0 world1 world1
    ⟨"eu-west-1", "logs", "bad.gz"⟩
    [Event.indexExists (Context.request false) "flowlogs-logs-2019-07-04",
      Event.createIndex (Context.request false) "flowlogs-logs-2019-07-04" mapping]
    [Event.download "logs" "bad.gz" "eu-west-1"] [80, 75, 1, 2] "gzip: invalid header"
    rfl rfl rfl).1

/-! ## Index naming -/

/-- C9. The index name of a notification is the value of `ES_INDEX`, a dash,
the bucket name, a dash, and the date of `time.Now()` as four-digit year, dash,
two-digit month, dash, two-digit day (ten characters for a year below 10000).
Every request of the turn that names an
index (existence check, creation, each bulk action, flush) names this one.  The
name depends on the prefix, the bucket and the date only: another notification,
in another environment, with the same three gets the same name, whatever its
object key and region. -/
theorem index_name_of_bucket_and_date {W : Type} (env : Env W) (ctx : Context) (w : W)
    (record : S3EventRecord) :
    buildIndexName env w record =
        env.getenv "ES_INDEX" ++ "-" ++ record.BucketName ++ "-" ++ (env.now w).Format ∧
      (env.now w).Format =
        appendInt (env.now w).year 4 ++ "-" ++ appendInt (env.now w).month 2 ++ "-" ++
          appendInt (env.now w).day 2 ∧
      ((env.now w).year < 10000 → (env.now w).month < 100 → (env.now w).day < 100 →
        (env.now w).Format.length = 10) ∧
      (∀ ev ∈ (loopBody env ctx w record).2.1, ∀ name ∈ ev.indices,
        name = env.getenv "ES_INDEX" ++ "-" ++ record.BucketName ++ "-" ++
          (env.now w).Format) ∧
      (∀ (V : Type) (env2 : Env V) (v : V) (record2 : S3EventRecord),
        env2.getenv "ES_INDEX" = env.getenv "ES_INDEX" →
        record2.BucketName = record.BucketName →
        env2.now v = env.now w →
        buildIndexName env2 v record2 = buildIndexName env w record) := by
  refine ⟨rfl, rfl, Date.Format_length (env.now w), ?_, ?_⟩
  · intro ev hev name hname
    have hb : buildIndexName env w record =
        env.getenv "ES_INDEX" ++ "-" ++ record.BucketName ++ "-" ++ (env.now w).Format := rfl
    rw [← hb]
    rcases loopBody_trace env ctx w record ev hev with h | h | h | ⟨entries, h⟩ | h | ⟨m, h⟩
    · rw [h] at hname; simpa [Event.indices] using hname
    · rw [h] at hname; simpa [Event.indices] using hname
    · rw [h] at hname; simp [Event.indices] at hname
    · rw [h, addEntries_nil] at hname
      simp only [Event.indices, List.map_map, List.mem_map] at hname
      obtain ⟨e, _, he⟩ := hname
      exact he.symm
    · rw [h] at hname; simpa [Event.indices] using hname
    · rw [h] at hname; simp [Event.indices] at hname
  · intro V env2 v record2 h1 h2 h3
    unfold buildIndexName
    rw [h1, h2, h3]

/-- Witness of C9: on 2019-07-04, prefix `flowlogs` and bucket `logs` give
`flowlogs-logs-2019-07-04`, for the key `good.gz` in `eu-west-1` and for the key
`bad.gz` in `us-east-1` alike. -/
theorem index_name_of_bucket_and_date_witness :
    buildIndexName (memEnv configNoToken true) world0 ⟨"eu-west-1", "logs", "good.gz"⟩ =
        "flowlogs-logs-2019-07-04" ∧
      buildIndexName (memEnv configNoToken false) world1 ⟨"us-east-1", "logs", "bad.gz"⟩ =
        buildIndexName (memEnv configNoToken true) world0 ⟨"eu-west-1", "logs", "good.gz"⟩ :=
  ⟨(index_name_of_bucket_and_date (memEnv configNoToken true) (Context.request false) world0
      ⟨"eu-west-1", "logs", "good.gz"⟩).1,
    (index_name_of_bucket_and_date (memEnv configNoToken true) (Context.request false) world0
      ⟨"eu-west-1", "logs", "good.gz"⟩).2.2.2.2 World (memEnv configNoToken false) world1
      ⟨"us-east-1", "logs", "bad.gz"⟩ rfl rfl rfl⟩

/-! ## Failures and the rest of the batch -/

/-- C2, at a failing input.  The index of the bucket `logs` exists and its object
`good.gz` loads well when notified alone, or after the object `bad.gz` whose
decompression fails.  Notified after an object of the bucket `other`, whose
index creation is not acknowledged, it is never processed: the handler returns
at the failure of the first notification. -/
theorem handler_returns_on_index_failure :
    handler (memEnv configNoToken false) (Context.request false) world1
        [⟨"eu-west-1", "other", "a.gz"⟩, ⟨"eu-west-1", "logs", "good.gz"⟩] =
      ([Event.indexExists (Context.request false) "flowlogs-other-2019-07-04",
        Event.createIndex (Context.request false) "flowlogs-other-2019-07-04" mapping,
        Event.print "index creation not acknowledged: %!s(<nil>)\n"], world1) ∧
    handler (memEnv configNoToken false) (Context.request false) world1
        [⟨"eu-west-1", "logs", "good.gz"⟩] =
      ([Event.indexExists (Context.request false) "flowlogs-logs-2019-07-04",
        Event.download "logs" "good.gz" "eu-west-1",
        Event.bulk Context.background [⟨"flowlogs-logs-2019-07-04", sampleEntry "OK"⟩],
        Event.flush Context.background "flowlogs-logs-2019-07-04",
        Event.print "logfile \"good.gz\" inserted\n"],
        { world1 with
          docs := [⟨"flowlogs-logs-2019-07-04", sampleEntry "OK"⟩],
          flushed := ["flowlogs-logs-2019-07-04"] }) ∧
    handler (memEnv configNoToken false) (Context.request false) world1
        [⟨"eu-west-1", "logs", "bad.gz"⟩, ⟨"eu-west-1", "logs", "good.gz"⟩] =
      ([Event.indexExists (Context.request false) "flowlogs-logs-2019-07-04",
        Event.download "logs" "bad.gz" "eu-west-1",
        Event.print "failed to decompress and parse logfile: gzip: invalid header\n",
        Event.indexExists (Context.request false) "flowlogs-logs-2019-07-04",
        Event.download "logs" "good.gz" "eu-west-1",
        Event.bulk Context.background [⟨"flowlogs-logs-2019-07-04", sampleEntry "OK"⟩],
        Event.flush Context.background "flowlogs-logs-2019-07-04",
        Event.print "logfile \"good.gz\" inserted\n"],
        { world1 with
          docs := [⟨"flowlogs-logs-2019-07-04", sampleEntry "OK"⟩],
          flushed := ["flowlogs-logs-2019-07-04"] }) :=
  ⟨rfl, rfl, rfl⟩

/-- The failure paths that keep the batch going.  Once the index step of a
notification has succeeded, a failure of the download, of the decompression and
parsing, or of the insertion (bulk write or flush) is printed, and the loop goes
on with the notifications after it: the trace is that of this turn followed by
that of the rest. -/
theorem processRecords_continues_after_object_failure {W : Type} (env : Env W)
    (ctx : Context) (w w1 : W) (record : S3EventRecord) (rest : List S3EventRecord)
    (tr : List Event)
    (hprov : provisionIndex env ctx w (buildIndexName env w record) = (true, tr, w1)) :
    processRecords env ctx w (record :: rest) =
        ((loopBody env ctx w record).2.1 ++
          (processRecords env ctx (loopBody env ctx w record).2.2 rest).1,
          (processRecords env ctx (loopBody env ctx w record).2.2 rest).2) ∧
      (∀ err,
        (downloadFromS3 env w1 record.BucketName record.ObjectKey record.AWSRegion).1 =
          Except.error err →
        Event.print ("failed to get logfile from S3: " ++ err ++ "\n") ∈
          (loopBody env ctx w record).2.1) ∧
      (∀ logfile err,
        (downloadFromS3 env w1 record.BucketName record.ObjectKey record.AWSRegion).1 =
          Except.ok logfile →
        gunzipAndParseLogfile env logfile = Except.error err →
        Event.print ("failed to decompress and parse logfile: " ++ err ++ "\n") ∈
          (loopBody env ctx w record).2.1) ∧
      (∀ logfile logEntries err,
        (downloadFromS3 env w1 record.BucketName record.ObjectKey record.AWSRegion).1 =
          Except.ok logfile →
        gunzipAndParseLogfile env logfile = Except.ok logEntries →
        (insertEntriesInES env
          (downloadFromS3 env w1 record.BucketName record.ObjectKey record.AWSRegion).2.2
          Context.background (buildIndexName env w record) logEntries).1 = some err →
        Event.print ("failed to insert entries in elasticsearch: " ++ err ++ "\n") ∈
          (loopBody env ctx w record).2.1) := by
  obtain ⟨tr2, w2, hb, hp⟩ :=
    processRecords_continues_after_index_step env ctx w w1 record rest tr hprov
  refine ⟨by rw [hp, hb], ?_, ?_, ?_⟩
  · intro err hd
    rcases hdl : downloadFromS3 env w1 record.BucketName record.ObjectKey record.AWSRegion
      with ⟨r, t, v⟩
    rw [hdl] at hd
    simp only at hd
    subst hd
    unfold loopBody
    simp [hprov, hdl]
  · intro logfile err hd hg
    rcases hdl : downloadFromS3 env w1 record.BucketName record.ObjectKey record.AWSRegion
      with ⟨r, t, v⟩
    rw [hdl] at hd
    simp only at hd
    subst hd
    unfold loopBody
    simp [hprov, hdl, hg]
  · intro logfile logEntries err hd hg hi
    rcases hdl : downloadFromS3 env w1 record.BucketName record.ObjectKey record.AWSRegion
      with ⟨r, t, v⟩
    rw [hdl] at hd hi
    simp only at hd hi
    subst hd
    rcases hins : insertEntriesInES env v Context.background (buildIndexName env w record)
      logEntries with ⟨oe, t3, v3⟩
    rw [hins] at hi
    simp only at hi
    subst hi
    unfold loopBody
    simp [hprov, hdl, hg, hins]

/-- An instance of the previous statement: `bad.gz`, whose decompression fails,
followed by `good.gz`. -/
theorem processRecords_continues_after_object_failure_witness :
    processRecords (memEnv configNoToken true) (Context.request false) world1
        [⟨"eu-west-1", "logs", "bad.gz"⟩, ⟨"eu-west-1", "logs", "good.gz"⟩] =
      ((loopBody (memEnv configNoToken true) (Context.request false) world1
          ⟨"eu-west-1", "logs", "bad.gz"⟩).2.1 ++
        (processRecords (memEnv configNoToken true) (Context.request false)
          (loopBody (memEnv configNoToken true) (Context.request false) world1
            ⟨"eu-west-1", "logs", "bad.gz"⟩).2.2 [⟨"eu-west-1", "logs", "good.gz"⟩]).1,
        (processRecords (memEnv configNoToken true) (Context.request false)
          (loopBody (memEnv configNoToken true) (Context.request false) world1
            ⟨"eu-west-1", "logs", "bad.gz"⟩).2.2 [⟨"eu-west-1", "logs", "good.gz"⟩]).2) ∧
      Event.print ("failed to decompress and parse logfile: " ++ "gzip: invalid header" ++
          "\n") ∈
        (loopBody (memEnv configNoToken true) (Context.request false) world1
          ⟨"eu-west-1", "logs", "bad.gz"⟩).2.1 :=
  ⟨(processRecords_continues_after_object_failure (memEnv configNoToken true)
      (Context.request false) world1 world1 ⟨"eu-west-1", "logs", "bad.gz"⟩
      [⟨"eu-west-1", "logs", "good.gz"⟩]
      [Event.indexExists (Context.request false) "flowlogs-logs-2019-07-04"] rfl).1,
    (processRecords_continues_after_object_failure (memEnv configNoToken true)
      (Context.request false) world1 world1 ⟨"eu-west-1", "logs", "bad.gz"⟩
      [⟨"eu-west-1", "logs", "good.gz"⟩]
      [Event.indexExists (Context.request false) "flowlogs-logs-2019-07-04"] rfl).2.2.1
      [80, 75, 1, 2] "gzip: invalid header" rfl rfl⟩

/-! ## Contexts -/

/-- C10, at a failing input.  Called with a live request context, the handler
issues the download with no context and the bulk write and the flush with
`context.Background()`; only the existence check carries the context of the
caller.  And `insertEntriesInES`, given a context that is already cancelled,
still issues the bulk write, on the background context, and the documents are
written. -/
theorem handler_calls_without_caller_context :
    (handler (memEnv configNoToken true) (Context.request false) world1
        [⟨"eu-west-1", "logs", "good.gz"⟩]).1 =
      [Event.indexExists (Context.request false) "flowlogs-logs-2019-07-04",
        Event.download "logs" "good.gz" "eu-west-1",
        Event.bulk Context.background [⟨"flowlogs-logs-2019-07-04", sampleEntry "OK"⟩],
        Event.flush Context.background "flowlogs-logs-2019-07-04",
        Event.print "logfile \"good.gz\" inserted\n"] ∧
    (¬ ∀ ev ∈ (handler (memEnv configNoToken true) (Context.request false) world1
        [⟨"eu-west-1", "logs", "good.gz"⟩]).1,
      ev.isCall = true → ev.context = some (Context.request false)) ∧
    insertEntriesInES (memEnv configNoToken true) world1 (Context.request true)
        "flowlogs-logs-2019-07-04" [sampleEntry "OK"] =
      (some "failed to flush index: context canceled",
        [Event.bulk Context.background [⟨"flowlogs-logs-2019-07-04", sampleEntry "OK"⟩],
          Event.flush (Context.request true) "flowlogs-logs-2019-07-04"],
        { world1 with docs := [⟨"flowlogs-logs-2019-07-04", sampleEntry "OK"⟩] }) := by
  refine ⟨rfl, ?_, rfl⟩
  intro h
  have ht : (handler (memEnv configNoToken true) (Context.request false) world1
      [⟨"eu-west-1", "logs", "good.gz"⟩]).1 =
    [Event.indexExists (Context.request false) "flowlogs-logs-2019-07-04",
      Event.download "logs" "good.gz" "eu-west-1",
      Event.bulk Context.background [⟨"flowlogs-logs-2019-07-04", sampleEntry "OK"⟩],
      Event.flush Context.background "flowlogs-logs-2019-07-04",
      Event.print "logfile \"good.gz\" inserted\n"] := rfl
  have h2 := h (Event.download "logs" "good.gz" "eu-west-1") (by rw [ht]; simp) rfl
  simp [Event.context] at h2

/-- The calls that do carry the context of the caller.  Every index existence
check and every create-index request of the handler is issued with the context
the handler was called with; every download is issued without a context. -/
theorem handler_index_calls_use_context {W : Type} (env : Env W) (ctx : Context) (w : W)
    (s3Event : List S3EventRecord) (ev : Event)
    (hev : ev ∈ (handler env ctx w s3Event).1) :
    (∀ c index, ev = Event.indexExists c index → ev.context = some ctx) ∧
      (∀ c index body, ev = Event.createIndex c index body → ev.context = some ctx) ∧
      (∀ bucket key region, ev = Event.download bucket key region → ev.context = none) := by
  refine ⟨?_, ?_, ?_⟩
  · intro c index hc
    rcases handler_trace env ctx w s3Event ev hev with ⟨m, h⟩ | ⟨v, record, _, hmem⟩
    · rw [h] at hc; cases hc
    · rcases loopBody_trace env ctx v record ev hmem with
        h | h | h | ⟨entries, h⟩ | h | ⟨m, h⟩ <;> rw [h] at hc <;> cases hc
      rw [h]; rfl
  · intro c index body hc
    rcases handler_trace env ctx w s3Event ev hev with ⟨m, h⟩ | ⟨v, record, _, hmem⟩
    · rw [h] at hc; cases hc
    · rcases loopBody_trace env ctx v record ev hmem with
        h | h | h | ⟨entries, h⟩ | h | ⟨m, h⟩ <;> rw [h] at hc <;> cases hc
      rw [h]; rfl
  · intro bucket key region hc
    rw [hc]; rfl

/-- An instance of the previous statement: the existence check of the run on
`good.gz`. -/
theorem handler_index_calls_use_context_witness :
    Event.indexExists (Context.request false) "flowlogs-logs-2019-07-04" ∈
        (handler (memEnv configNoToken true) (Context.request false) world1
          [⟨"eu-west-1", "logs", "good.gz"⟩]).1 ∧
      (Event.indexExists (Context.request false) "flowlogs-logs-2019-07-04").context =
        some (Context.request false) :=
  have hmem : Event.indexExists (Context.request false) "flowlogs-logs-2019-07-04" ∈
      (handler (memEnv configNoToken true) (Context.request false) world1
        [⟨"eu-west-1", "logs", "good.gz"⟩]).1 := by
    have ht : (handler (memEnv configNoToken true) (Context.request false) world1
        [⟨"eu-west-1", "logs", "good.gz"⟩]).1 =
      [Event.indexExists (Context.request false) "flowlogs-logs-2019-07-04",
        Event.download "logs" "good.gz" "eu-west-1",
        Event.bulk Context.background [⟨"flowlogs-logs-2019-07-04", sampleEntry "OK"⟩],
        Event.flush Context.background "flowlogs-logs-2019-07-04",
        Event.print "logfile \"good.gz\" inserted\n"] := rfl
    rw [ht]
    simp
  ⟨hmem, (handler_index_calls_use_context (memEnv configNoToken true) (Context.request false)
    world1 [⟨"eu-west-1", "logs", "good.gz"⟩] _ hmem).1 _ _ rfl⟩

end FlowlogsIngester
